import Mathlib

/-!
Verification of the scrape-and-reconcile core of the stiebel-isg adapter
(`main.js`).  The JavaScript functions are shallowly embedded as executable
Lean definitions: JS numbers are rationals with an explicit non-finite
marker, JS objects holding state metadata become structures, the
asynchronous concurrency queue becomes a step function on an explicit
state, and the side-effecting functions return records describing the
effects they would perform.
-/

/- ===================== basic JS string helpers ===================== -/

/-- Characters of a string with leading and trailing whitespace removed,
mirroring JavaScript `String.prototype.trim`. -/
def trimChars (l : List Char) : List Char :=
  ((l.dropWhile Char.isWhitespace).reverse.dropWhile Char.isWhitespace).reverse

/-- JS `s.trim()`. -/
def jsTrim (s : String) : String := ⟨trimChars s.data⟩

/-- Split a character list on a separator character, mirroring JS
`s.split(sep)` for a single-character separator: `split` of the empty
string is `[""]`, separators at the ends produce empty fields. -/
def splitOnChar (c : Char) : List Char → List (List Char)
  | [] => [[]]
  | x :: xs =>
    let r := splitOnChar c xs
    if x == c then [] :: r
    else
      match r with
      | h :: t => (x :: h) :: t
      | [] => [[x]]

/-- Does `pat` occur at the start of `l`? (JS `s.search(pat) == 0` for a
regex that is a plain literal.) -/
def leadsWith : List Char → List Char → Bool
  | [], _ => true
  | _ :: _, [] => false
  | p :: ps, c :: cs => p == c && leadsWith ps cs

/-- Does `pat` occur anywhere in `l`? (JS `s.search(pat) > -1` for a plain
literal pattern.) -/
def hasSub (pat : List Char) : List Char → Bool
  | [] => leadsWith pat []
  | c :: cs => leadsWith pat (c :: cs) || hasSub pat cs

/-- JS `key.search(pat) > -1` for the literal keyword patterns used by the
extractors. -/
def jsSearchHit (s pat : String) : Bool := hasSub pat.data s.data

/-- JS `key.search(pat) == 0` for a literal pattern. -/
def jsSearchAtStart (s pat : String) : Bool := leadsWith pat.data s.data

/- ===================== JS numbers ===================== -/

/-- A JavaScript number: `some q` is the finite number `q`, `none` stands
for the non-finite values (`NaN`, `Infinity`, `-Infinity`).  The adapter
only ever branches on finiteness, never on which non-finite value it has. -/
abbrev JSNum := Option ℚ

/-- Numeric value of a digit list (most significant first). -/
def digitsVal (l : List Char) : Nat :=
  l.foldl (fun a c => a * 10 + (c.toNat - 48)) 0

/-- JS `Number(s)` restricted to the decimal literals that occur in this
adapter's data: optional sign, digits with an optional single decimal
point (`"12"`, `"12."`, `"12.5"`, `".5"`).  `Number('') = 0` as in JS.
Hexadecimal and exponent literals never reach this code path, and
`"Infinity"` is non-finite either way, so every other string maps to
`none` (non-finite). -/
def jsNumber? (s : String) : Option ℚ :=
  if s = "" then some 0
  else
    let signed : ℚ × List Char :=
      match s.data with
      | '-' :: r => (-1, r)
      | '+' :: r => (1, r)
      | r => (1, r)
    match splitOnChar '.' signed.2 with
    | [ip] =>
      if ip ≠ [] && ip.all Char.isDigit then
        some (signed.1 * (digitsVal ip : ℚ))
      else none
    | [ip, fp] =>
      if (ip ≠ [] || fp ≠ []) && ip.all Char.isDigit && fp.all Char.isDigit then
        some (signed.1 * ((digitsVal ip : ℚ) + (digitsVal fp : ℚ) / (10 ^ fp.length : ℚ)))
      else none
    | _ => none

/- ===================== JS values for the bound arguments ===================== -/

/-- The JavaScript values that can arrive as `valMin` / `valMax` in
`createISGCommands`: `undefined`, `null`, a number (finite or not), or a
string. -/
inductive JSVal where
  | undef
  | null
  | num (v : JSNum)
  | str (s : String)
deriving DecidableEq, Repr

/-- The bound that `createISGCommands` (main.js lines 601-639) puts into
the desired common object for one of `valMin` / `valMax`: `none` means the
key is left out entirely.

The code guards `typeof v !== 'undefined' && v !== null`, then takes
`String(v).trim()`, requires it non-empty, and requires `Number(...)` of
it to be finite.  For a numeric argument `String`/`Number` round-trip
exactly (`String(NaN) = "NaN"` re-parses to `NaN`; a finite number prints
as a non-empty literal that parses back to itself), so the numeric cases
reduce to finiteness. -/
def desiredBound : JSVal → Option ℚ
  | .undef => none
  | .null => none
  | .num none => none
  | .num (some q) => some q
  | .str s =>
    let t := jsTrim s
    if t = "" then none
    else
      match jsNumber? t with
      | some q => some q
      | none => none

/-- Spec-side predicate, following the spec's words: the bound value,
converted to a string and trimmed, is non-empty and parses to a finite
number.  Case-reduced over the JS value forms: `String(undefined)` and
`String(null)` are non-empty words that parse to `NaN`; a non-finite
number prints as `"NaN"`/`"Infinity"` which does not parse to a finite
number; a finite number prints as a non-empty literal that parses back to
itself. -/
def boundFiniteSpec : JSVal → Bool
  | .undef => false
  | .null => false
  | .num none => false
  | .num (some _) => true
  | .str s => (!(jsTrim s == "")) && (jsNumber? (jsTrim s)).isSome

/- ===================== unit cleanup ===================== -/

/-- One pass of `valUnit.replace(/ +0+/g, '')` (main.js line 576): a
maximal run of spaces followed by at least one zero is deleted; a run of
spaces not followed by a zero is kept. -/
def cleanUnitAux : Nat → List Char → List Char
  | 0, l => l
  | _, [] => []
  | fuel + 1, ' ' :: rest =>
    let r1 := rest.dropWhile (· == ' ')
    if (r1.takeWhile (· == '0')) ≠ [] then
      cleanUnitAux fuel (r1.dropWhile (· == '0'))
    else ' ' :: cleanUnitAux fuel rest
  | fuel + 1, c :: rest => c :: cleanUnitAux fuel rest

/-- `(valUnit || '').replace(/ +0+/g, '')`. -/
def cleanUnit (s : String) : String := ⟨cleanUnitAux s.data.length s.data⟩

/- ===================== states parsing ===================== -/

/-- An enumerated-state mapping as js-controller stores it: an
insertion-ordered map from raw code to label. -/
abbrev StatesMap := List (String × String)

/-- JS `obj[k] = v` on an insertion-ordered object: an existing key keeps
its position and gets the new value, a new key is appended. -/
def upsert (m : StatesMap) (k v : String) : StatesMap :=
  if m.any (fun p => p.1 == k) then
    m.map (fun p => if p.1 == k then (k, v) else p)
  else m ++ [(k, v)]

/-- Consume characters up to an unescaped closing quote; returns the
content and the remainder after the quote.  The state strings built by
`getIsgCommands` contain no escape sequences. -/
def splitQuoted : List Char → Option (List Char × List Char)
  | [] => none
  | '"' :: rest => some ([], rest)
  | c :: rest =>
    match splitQuoted rest with
    | none => none
    | some (s, r) => some (c :: s, r)

/-- Parse `"k":"v"` pairs separated by `,` and terminated by `}`, the
body of a flat JSON object of string keys and string values (the only
object shape `JSON.parse` ever receives from this adapter).  Duplicate
keys behave as in JS: last value wins, first position kept. -/
def parsePairs : Nat → List Char → StatesMap → Option StatesMap
  | 0, _, _ => none
  | fuel + 1, l, acc =>
    match l with
    | '"' :: r0 =>
      match splitQuoted r0 with
      | some (k, ':' :: '"' :: r2) =>
        match splitQuoted r2 with
        | some (v, ',' :: r4) => parsePairs fuel r4 (upsert acc ⟨k⟩ ⟨v⟩)
        | some (v, ['}']) => some (upsert acc ⟨k⟩ ⟨v⟩)
        | _ => none
      | _ => none
    | _ => none

/-- `JSON.parse` for the flat string-map objects produced by the command
extractor (`{"code":"label",...}` or `{}`); anything else — including the
array payloads that never occur here — fails. -/
def jsonFlatObj (s : String) : Option StatesMap :=
  match s.data with
  | '{' :: rest =>
    if rest = ['}'] then some []
    else parsePairs (rest.length + 1) rest []
  | _ => none

/-- `s.replace(/'/g, '"')`, the single-quote fallback before the second
`JSON.parse` attempt. -/
def squoteSwap (s : String) : String :=
  ⟨s.data.map (fun c => if c = '\'' then '"' else c)⟩

/-- The `valStates` argument of `createISGCommands`: JS-falsy (missing or
the empty string), an object already in map form, or a string. -/
inductive StatesVal where
  | falsy
  | obj (m : StatesMap)
  | strv (s : String)
deriving DecidableEq, Repr

/-- Join character lists with `':'`, mirroring `parts.join(':')`. -/
def joinColon : List (List Char) → List Char
  | [] => []
  | [x] => x
  | x :: xs => x ++ ':' :: joinColon xs

/-- Parse one `"code:label,code:label"` pair list (main.js lines 662-677):
split on `,`, split each pair on `:`, trim the key and the re-joined
remainder, skip pairs without a `:` or with an empty key. -/
def delimitedStates (t : String) : StatesMap :=
  (splitOnChar ',' t.data).foldl
    (fun acc pair =>
      match splitOnChar ':' pair with
      | [] => acc
      | [_] => acc
      | k :: rest =>
        let key := jsTrim ⟨k⟩
        let value := jsTrim ⟨joinColon rest⟩
        if key == "" then acc else upsert acc key value)
    []

/-- The `states` field of the desired common object (main.js lines
641-683): an object is taken as-is; a string starting with `{`/`[` goes
through `JSON.parse` with a single-quote fallback; otherwise the
`"code:label"` list form is tried; an unparseable or empty result leaves
`states` unset. -/
def parseStates : StatesVal → Option StatesMap
  | .falsy => none
  | .obj m => some m
  | .strv s =>
    let t := jsTrim s
    if leadsWith ['{'] t.data || leadsWith ['['] t.data then
      match jsonFlatObj t with
      | some m => some m
      | none =>
        match jsonFlatObj (squoteSwap t) with
        | some m => some m
        | none => none
    else
      let obj := delimitedStates t
      if obj ≠ [] then some obj else none

/- ===================== the common object and reconciliation ===================== -/

/-- The `common` of a command state object, restricted to the nine keys
`createISGCommands` reads and writes: `name, type, read, write, unit,
role, min, max, states`.  `min`/`max` are `none` when the key is absent;
both are rationals whenever present because this adapter only ever stores
finite numbers there. -/
structure CommonObj where
  name : String
  type : String
  read : Bool
  write : Bool
  unit : String
  role : String
  min : Option ℚ
  max : Option ℚ
  states : Option StatesMap
deriving DecidableEq, Repr

/-- The desired common object built by `createISGCommands` (main.js lines
576-683) from the extracted record. -/
def buildDesiredCommon (valTagLang valType valUnit valRole : String)
    (valMin valMax : JSVal) (valStates : StatesVal) : CommonObj :=
  { name := valTagLang
    type := valType
    read := true
    write := true
    unit := cleanUnit valUnit
    role := valRole
    min := desiredBound valMin
    max := desiredBound valMax
    states := parseStates valStates }

/-- Merging the desired common into an existing one (main.js lines
713-747): the six scalar fields are overwritten; `min`/`max` are set when
desired and deleted when the desired common lacks them; `states` is set
when desired and otherwise left as it was. -/
def applyDesired (existing desired : CommonObj) : CommonObj :=
  { name := desired.name
    type := desired.type
    read := desired.read
    write := desired.write
    unit := desired.unit
    role := desired.role
    min := desired.min
    max := desired.max
    states :=
      match desired.states with
      | some s => some s
      | none => existing.states }

/-- The field-by-field difference check of main.js lines 749-764 over the
nine keys.  The JS comparison is `String(a) === String(b)` for scalars and
`JSON.stringify(a) === JSON.stringify(b)` for objects; on this typed model
both reduce to equality (`String` is injective on numbers and prints
`undefined` for an absent key, and `JSON.stringify` is injective on
insertion-ordered string maps). -/
def needUpdate (existing newCommon : CommonObj) : Bool :=
  decide (existing.name ≠ newCommon.name) ||
  decide (existing.type ≠ newCommon.type) ||
  decide (existing.read ≠ newCommon.read) ||
  decide (existing.write ≠ newCommon.write) ||
  decide (existing.unit ≠ newCommon.unit) ||
  decide (existing.role ≠ newCommon.role) ||
  decide (existing.min ≠ newCommon.min) ||
  decide (existing.max ≠ newCommon.max) ||
  decide (existing.states ≠ newCommon.states)

/-- What happened to the object: created fresh, patched via
`extendObject`, or left untouched. -/
inductive ReconcileAction where
  | create
  | patch
  | noop
deriving DecidableEq, Repr

/-- Outcome of one `createISGCommands` call for a record: the action
taken on the object, the common it ends up with, and whether the state
value was written (it always is, on every branch). -/
structure ReconcileResult where
  action : ReconcileAction
  common : CommonObj
  valueWritten : Bool
deriving DecidableEq, Repr

/-- The object-reconciliation part of `createISGCommands` (main.js lines
688-784): a missing object is created with the desired common; an
existing one is patched with `extendObject` exactly when the merged
common differs on one of the nine keys, and otherwise left alone; the
value is written on every path. -/
def reconcileCommon (existing : Option CommonObj) (desired : CommonObj) :
    ReconcileResult :=
  match existing with
  | none => { action := .create, common := desired, valueWritten := true }
  | some e =>
    let n := applyDesired e desired
    if needUpdate e n then { action := .patch, common := n, valueWritten := true }
    else { action := .noop, common := e, valueWritten := true }

/-- `createISGCommands` end to end on one record: build the desired
common from the raw arguments, then reconcile it against the persisted
object (if any). -/
def createISGCommands (valTagLang valType valUnit valRole : String)
    (valMin valMax : JSVal) (valStates : StatesVal)
    (existing : Option CommonObj) : ReconcileResult :=
  reconcileCommon existing
    (buildDesiredCommon valTagLang valType valUnit valRole valMin valMax valStates)
/- helper lemmas shared by the reconciliation theorems -/

theorem reconcile_some_eq (e d : CommonObj) :
    reconcileCommon (some e) d =
      if needUpdate e (applyDesired e d) then
        { action := .patch, common := applyDesired e d, valueWritten := true }
      else { action := .noop, common := e, valueWritten := true } := rfl

theorem applyDesired_self (c : CommonObj) : applyDesired c c = c := by
  rcases c with ⟨n, t, r, w, u, ro, mi, ma, st⟩
  cases st <;> rfl

theorem applyDesired_applyDesired (e d : CommonObj) :
    applyDesired (applyDesired e d) d = applyDesired e d := by
  rcases d with ⟨n, t, r, w, u, ro, mi, ma, st⟩
  cases st <;> rfl

theorem needUpdate_refl (c : CommonObj) : needUpdate c c = false := by
  simp [needUpdate]

theorem needUpdate_eq_false_iff (a b : CommonObj) : needUpdate a b = false ↔ a = b := by
  rcases a with ⟨n, t, r, w, u, ro, mi, ma, st⟩
  rcases b with ⟨n', t', r', w', u', ro', mi', ma', st'⟩
  simp [needUpdate, CommonObj.mk.injEq]
  tauto

theorem reconcile_valueWritten (ex : Option CommonObj) (d : CommonObj) :
    (reconcileCommon ex d).valueWritten = true := by
  cases ex with
  | none => rfl
  | some e =>
    rw [reconcile_some_eq]
    split <;> rfl

/-- C1 -/
theorem command_bounds_present_iff_finite (valTagLang valType valUnit valRole : String)
    (valMin valMax : JSVal) (valStates : StatesVal) :
    ((buildDesiredCommon valTagLang valType valUnit valRole valMin valMax valStates).min.isSome
        ↔ boundFiniteSpec valMin = true)
    ∧ ((buildDesiredCommon valTagLang valType valUnit valRole valMin valMax valStates).max.isSome
        ↔ boundFiniteSpec valMax = true) := by
  constructor
  · cases valMin with
    | undef => simp [buildDesiredCommon, desiredBound, boundFiniteSpec]
    | null => simp [buildDesiredCommon, desiredBound, boundFiniteSpec]
    | num v => cases v <;> simp [buildDesiredCommon, desiredBound, boundFiniteSpec]
    | str s =>
      simp only [buildDesiredCommon, desiredBound, boundFiniteSpec]
      by_cases h : jsTrim s = ""
      · simp [h]
      · simp only [h, if_false, Bool.and_eq_true, Bool.not_eq_true', beq_eq_false_iff_ne, ne_eq]
        cases hn : jsNumber? (jsTrim s) <;> simp [hn, h]
  · cases valMax with
    | undef => simp [buildDesiredCommon, desiredBound, boundFiniteSpec]
    | null => simp [buildDesiredCommon, desiredBound, boundFiniteSpec]
    | num v => cases v <;> simp [buildDesiredCommon, desiredBound, boundFiniteSpec]
    | str s =>
      simp only [buildDesiredCommon, desiredBound, boundFiniteSpec]
      by_cases h : jsTrim s = ""
      · simp [h]
      · simp only [h, if_false, Bool.and_eq_true, Bool.not_eq_true', beq_eq_false_iff_ne, ne_eq]
        cases hn : jsNumber? (jsTrim s) <;> simp [hn, h]

/-- C2: per bound key.  An existing common carrying `min` (respectively
`max`) reconciled with a desired common that lacks that key — whatever
the other bound does — always yields a patch (`extendObject`, never
delete-and-recreate) whose common has that key removed
(main.js lines 723-740). -/
theorem stale_bound_removed_by_patch (e d : CommonObj) :
    (e.min.isSome = true → d.min = none →
      (reconcileCommon (some e) d).action = ReconcileAction.patch
      ∧ (reconcileCommon (some e) d).common.min = none)
    ∧ (e.max.isSome = true → d.max = none →
      (reconcileCommon (some e) d).action = ReconcileAction.patch
      ∧ (reconcileCommon (some e) d).common.max = none) := by
  constructor
  · intro hm hd
    have hn : needUpdate e (applyDesired e d) = true := by
      simp only [needUpdate, applyDesired, hd, Bool.or_eq_true, decide_eq_true_eq]
      simp only [Option.isSome_iff_ne_none] at hm
      tauto
    rw [reconcile_some_eq, if_pos hn]
    exact ⟨rfl, by simp [applyDesired, hd]⟩
  · intro hM hd
    have hn : needUpdate e (applyDesired e d) = true := by
      simp only [needUpdate, applyDesired, hd, Bool.or_eq_true, decide_eq_true_eq]
      simp only [Option.isSome_iff_ne_none] at hM
      tauto
    rw [reconcile_some_eq, if_pos hn]
    exact ⟨rfl, by simp [applyDesired, hd]⟩

theorem stale_bound_removed_by_patch_witness :
    ((reconcileCommon
        (some { name := "n", type := "number", read := true, write := true, unit := "",
                role := "level", min := some 0, max := some 50, states := none })
        { name := "n", type := "number", read := true, write := true, unit := "",
          role := "level", min := none, max := some 60, states := none }).action
      = ReconcileAction.patch
    ∧ (reconcileCommon
        (some { name := "n", type := "number", read := true, write := true, unit := "",
                role := "level", min := some 0, max := some 50, states := none })
        { name := "n", type := "number", read := true, write := true, unit := "",
          role := "level", min := none, max := some 60, states := none }).common.min = none)
    ∧ ((reconcileCommon
        (some { name := "m", type := "number", read := true, write := true, unit := "",
                role := "level", min := some 10, max := some 50, states := none })
        { name := "m", type := "number", read := true, write := true, unit := "",
          role := "level", min := some 10, max := none, states := none }).action
      = ReconcileAction.patch
    ∧ (reconcileCommon
        (some { name := "m", type := "number", read := true, write := true, unit := "",
                role := "level", min := some 10, max := some 50, states := none })
        { name := "m", type := "number", read := true, write := true, unit := "",
          role := "level", min := some 10, max := none, states := none }).common.max = none) :=
  ⟨(stale_bound_removed_by_patch _ _).1 rfl rfl,
   (stale_bound_removed_by_patch _ _).2 rfl rfl⟩

theorem reconcile_twice_noop (e0 : Option CommonObj) (d : CommonObj) :
    (reconcileCommon (some (reconcileCommon e0 d).common) d).action = ReconcileAction.noop := by
  have key : applyDesired (reconcileCommon e0 d).common d = (reconcileCommon e0 d).common := by
    cases e0 with
    | none => exact applyDesired_self d
    | some e =>
      rw [reconcile_some_eq]
      by_cases h : needUpdate e (applyDesired e d) = true
      · rw [if_pos h]
        exact applyDesired_applyDesired e d
      · rw [if_neg h]
        have h' : needUpdate e (applyDesired e d) = false := by
          simpa using h
        exact ((needUpdate_eq_false_iff _ _).mp h').symm
  rw [reconcile_some_eq, key, needUpdate_refl]
  rfl

/-- C4 -/
theorem reconcile_idempotent_second_noop (valTagLang valType valUnit valRole : String)
    (valMin valMax : JSVal) (valStates : StatesVal) (existing : Option CommonObj) :
    (createISGCommands valTagLang valType valUnit valRole valMin valMax valStates
        (some (createISGCommands valTagLang valType valUnit valRole valMin valMax valStates
          existing).common)).action = ReconcileAction.noop
    ∧ (createISGCommands valTagLang valType valUnit valRole valMin valMax valStates
        (some (createISGCommands valTagLang valType valUnit valRole valMin valMax valStates
          existing).common)).valueWritten = true :=
  ⟨reconcile_twice_noop existing _, reconcile_valueWritten _ _⟩

/-- C9 -/
theorem absent_states_not_removed (e d : CommonObj) (s : StatesMap)
    (hs : e.states = some s) (hd : d.states = none) :
    (reconcileCommon (some e) d).common.states = some s := by
  rw [reconcile_some_eq]
  by_cases h : needUpdate e (applyDesired e d) = true
  · rw [if_pos h]
    show (applyDesired e d).states = some s
    simp [applyDesired, hd, hs]
  · rw [if_neg h]
    exact hs

theorem absent_states_not_removed_witness :
    (reconcileCommon
        (some { name := "n", type := "number", read := true, write := true, unit := "",
                role := "level", min := none, max := none, states := some [("0", "Off")] })
        { name := "m", type := "number", read := true, write := true, unit := "",
          role := "level", min := none, max := none, states := none }).common.states
      = some [("0", "Off")] :=
  absent_states_not_removed _ _ _ rfl rfl
/- ===================== safeSetState: clamping on value writes ===================== -/

/-- The `common` fields of a persisted object that `safeSetState` reads
for clamping.  `min`/`max` are `none` when absent; whenever present they
are (finite) numbers, because `createISGCommands` is the only writer of
these keys and only ever stores finite numbers (the code additionally
guards with `!isNaN(Number(min))`). -/
structure StateCommon where
  min : Option ℚ
  max : Option ℚ
deriving DecidableEq, Repr

/-- The clamping of main.js lines 268-290: first, if `min` is declared
and the (finite) value is below it, raise to `min`; second, if `max` is
declared and the current value is above it, set the value to `Number(min)`
— deliberately `min`, not `max`, mimicking the legacy ISG widget — which
is `NaN` (`none`) when no `min` is declared.  A `NaN` value is never
clamped (the `!isNaN(Number(finalVal))` guards). -/
def clampCommon (c : StateCommon) (v : JSNum) : JSNum :=
  let f1 : JSNum :=
    match c.min, v with
    | some m, some x => if x < m then some m else some x
    | _, _ => v
  match c.max, f1 with
  | some M, some x =>
    if x > M then
      match c.min with
      | some m => some m
      | none => none
    else some x
  | _, _ => f1

/-- One `adapter.setState` call as `safeSetState` issues it: the id, the
written value, the ack flag, the optional expiry, and whether the
persisted object was fetched (`adapter.getObject`) before writing. -/
structure WriteOp where
  id : String
  val : JSNum
  ack : Bool
  expire : Option ℕ
  fetchedObject : Bool
deriving DecidableEq, Repr

/-- JS `id.split('.').pop()`. -/
def lastSegment (id : String) : String :=
  ⟨(splitOnChar '.' id.data).getLastD []⟩

/-- The test `last && last.match(/^val(\d+)$/)` of main.js lines 251-252:
the empty string is falsy and never matches; otherwise the segment must be
`val` followed by at least one digit and nothing else. -/
def isValNN (s : String) : Bool :=
  match s.data with
  | 'v' :: 'a' :: 'l' :: rest => (!(rest == [])) && rest.all Char.isDigit
  | _ => false

/-- `safeSetState` (main.js lines 249-305) as the write it performs.  An
id whose last segment is not `val<digits>` is written directly, without
fetching the object and without clamping; a `val<digits>` id first fetches
the object (`obj = none` models a missing object or a `getObject` error,
in which case the value passes through unclamped) and clamps against its
declared bounds. -/
def safeSetState (id : String) (v : JSNum) (ack : Bool) (expire : Option ℕ)
    (obj : Option StateCommon) : WriteOp :=
  if isValNN (lastSegment id) then
    { id := id
      val :=
        match obj with
        | some c => clampCommon c v
        | none => v
      ack := ack
      expire := expire
      fetchedObject := true }
  else
    { id := id, val := v, ack := ack, expire := expire, fetchedObject := false }

/-- C3 -/
theorem bounded_write_clamps_to_min (id : String) (ack : Bool) (expire : Option ℕ)
    (v m M : ℚ) (h : isValNN (lastSegment id) = true) :
    (safeSetState id (some v) ack expire (some { min := some m, max := some M })).val
      = some (if v < m then m else if v > M then m else v) := by
  simp only [safeSetState, h, if_true]
  show clampCommon { min := some m, max := some M } (some v)
      = some (if v < m then m else if v > M then m else v)
  simp only [clampCommon]
  by_cases h1 : v < m
  · simp only [if_pos h1]
    by_cases h2 : m > M
    · simp [h2]
    · simp [h2]
  · simp only [if_neg h1]
    by_cases h2 : v > M
    · simp [h2]
    · simp [h2]

theorem bounded_write_clamps_to_min_witness :
    isValNN (lastSegment "stiebel-isg.0.val5") = true
    ∧ (safeSetState "stiebel-isg.0.val5" (some (-5)) true none
        (some { min := some 0, max := some 50 })).val
      = some (if (-5 : ℚ) < 0 then 0 else if (-5 : ℚ) > 50 then 0 else -5) :=
  ⟨by decide, bounded_write_clamps_to_min _ _ _ _ _ _ (by decide)⟩

/-- C10 -/
theorem non_val_id_direct_write (id : String) (v : JSNum) (ack : Bool)
    (expire : Option ℕ) (obj : Option StateCommon)
    (h : isValNN (lastSegment id) = false) :
    safeSetState id v ack expire obj
      = { id := id, val := v, ack := ack, expire := expire, fetchedObject := false } := by
  simp only [safeSetState, h, Bool.false_eq_true, if_false]

theorem non_val_id_direct_write_witness :
    isValNN (lastSegment "info.connection") = false
    ∧ safeSetState "info.connection" (some 1) true (some 120)
        (some { min := some 0, max := some 50 })
      = { id := "info.connection", val := some 1, ack := true, expire := some 120,
          fetchedObject := false } :=
  ⟨by decide, non_val_id_direct_write _ _ _ _ _ (by decide)⟩
/- ===================== the concurrency queue (Fetch Gate) ===================== -/

/-- The configured admission limit defaults to 3 (main.js line 61; the
`ready()` handler keeps it at 3 unless the config supplies a positive
number). -/
def maxConcurrentFetchesDefault : Nat := 3

/-- The events visible to the queue of main.js lines 59-83: `schedule`
pushes a task (identified here by a number) and runs the admission loop;
`complete` fires when a running task settles — fulfilled or rejected —
decrementing `running` and re-running the admission loop. -/
inductive GateEvent where
  | submit (t : Nat)
  | complete
deriving DecidableEq, Repr

/-- The module-level queue state: the pending FIFO (`queue`) and the
number of admitted, not-yet-settled tasks (`running`). -/
structure GateState where
  queue : List Nat
  running : Nat
deriving DecidableEq, Repr

/-- The `while (running < maxConcurrentFetches && queue.length > 0)` loop
of `runQueue` (main.js lines 70-83): shift tasks off the front and start
them until the limit is reached or the queue is empty.  Returns the
remaining queue, the new running count, and the admitted tasks in start
order. -/
def runQueueAux (maxC : Nat) : List Nat → Nat → List Nat × Nat × List Nat
  | [], running => ([], running, [])
  | t :: rest, running =>
    if running < maxC then
      let r := runQueueAux maxC rest (running + 1)
      (r.1, r.2.1, t :: r.2.2)
    else (t :: rest, running, [])

/-- `runQueue` on the whole state. -/
def runQueue (maxC : Nat) (s : GateState) : GateState × List Nat :=
  let r := runQueueAux maxC s.queue s.running
  (⟨r.1, r.2.1⟩, r.2.2)

/-- One event: `schedule(fn)` pushes at the back and calls `runQueue`; a
task completion (the `.finally` of main.js lines 78-81) decrements
`running` and calls `runQueue` again.  A completion can only fire while a
task is running, so `running = 0` is an impossible no-op case. -/
def gateStep (maxC : Nat) (s : GateState) : GateEvent → GateState × List Nat
  | .submit t => runQueue maxC ⟨s.queue ++ [t], s.running⟩
  | .complete =>
    if s.running = 0 then (s, [])
    else runQueue maxC ⟨s.queue, s.running - 1⟩

/-- Run a trace of events from a state, accumulating every admitted task
in start order. -/
def gateRunFrom (maxC : Nat) : GateState → List Nat → List GateEvent → GateState × List Nat
  | s, started, [] => (s, started)
  | s, started, e :: es =>
    let r := gateStep maxC s e
    gateRunFrom maxC r.1 (started ++ r.2) es

/-- Run a trace from the initial state (empty queue, nothing running). -/
def gateRun (maxC : Nat) (es : List GateEvent) : GateState × List Nat :=
  gateRunFrom maxC ⟨[], 0⟩ [] es

/-- The submitted task ids of a trace, in submission order. -/
def submitsOf : List GateEvent → List Nat
  | [] => []
  | .submit t :: es => t :: submitsOf es
  | .complete :: es => submitsOf es

theorem runQueueAux_spec (maxC : Nat) (q : List Nat) (r : Nat) :
    q = (runQueueAux maxC q r).2.2 ++ (runQueueAux maxC q r).1
    ∧ (runQueueAux maxC q r).2.1 = r + (runQueueAux maxC q r).2.2.length := by
  induction q generalizing r with
  | nil => simp [runQueueAux]
  | cons t rest ih =>
    by_cases h : r < maxC
    · simp only [runQueueAux, if_pos h]
      obtain ⟨ih1, ih2⟩ := ih (r + 1)
      constructor
      · simpa using ih1
      · simp only [List.length_cons, ih2]
        omega
    · simp [runQueueAux, if_neg h]

theorem runQueueAux_le (maxC : Nat) (q : List Nat) (r : Nat) (h : r ≤ maxC) :
    (runQueueAux maxC q r).2.1 ≤ maxC := by
  induction q generalizing r with
  | nil => simpa [runQueueAux] using h
  | cons t rest ih =>
    by_cases hlt : r < maxC
    · simp only [runQueueAux, if_pos hlt]
      exact ih (r + 1) hlt
    · simpa [runQueueAux, if_neg hlt] using h

theorem gateStep_running_le (maxC : Nat) (s : GateState) (e : GateEvent)
    (h : s.running ≤ maxC) : (gateStep maxC s e).1.running ≤ maxC := by
  cases e with
  | submit t => exact runQueueAux_le maxC _ _ h
  | complete =>
    by_cases h0 : s.running = 0
    · simp [gateStep, h0, h]
    · simp only [gateStep, if_neg h0, runQueue]
      exact runQueueAux_le maxC _ _ (Nat.le_trans (Nat.sub_le s.running 1) h)

theorem gateStep_fifo (maxC : Nat) (s : GateState) (e : GateEvent) :
    s.queue ++ submitsOf [e] = (gateStep maxC s e).2 ++ (gateStep maxC s e).1.queue := by
  cases e with
  | submit t =>
    simpa [gateStep, runQueue, submitsOf] using (runQueueAux_spec maxC (s.queue ++ [t]) s.running).1
  | complete =>
    by_cases h0 : s.running = 0
    · simp [gateStep, h0, submitsOf]
    · simpa [gateStep, if_neg h0, runQueue, submitsOf]
        using (runQueueAux_spec maxC s.queue (s.running - 1)).1

theorem gateRunFrom_spec (maxC : Nat) (es : List GateEvent) :
    ∀ (s : GateState) (started : List Nat), s.running ≤ maxC →
      (gateRunFrom maxC s started es).1.running ≤ maxC
      ∧ (gateRunFrom maxC s started es).2 ++ (gateRunFrom maxC s started es).1.queue
          = started ++ s.queue ++ submitsOf es := by
  induction es with
  | nil => intro s started h; simp [gateRunFrom, submitsOf, h]
  | cons e es ih =>
    intro s started h
    simp only [gateRunFrom]
    obtain ⟨ih1, ih2⟩ := ih (gateStep maxC s e).1 (started ++ (gateStep maxC s e).2)
      (gateStep_running_le maxC s e h)
    refine ⟨ih1, ?_⟩
    have hfifo := gateStep_fifo maxC s e
    have hsub : submitsOf (e :: es) = submitsOf [e] ++ submitsOf es := by
      cases e <;> simp [submitsOf]
    rw [ih2, hsub]
    simp only [List.append_assoc]
    congr 1
    calc (gateStep maxC s e).2 ++ ((gateStep maxC s e).1.queue ++ submitsOf es)
        = ((gateStep maxC s e).2 ++ (gateStep maxC s e).1.queue) ++ submitsOf es := by
          simp [List.append_assoc]
      _ = (s.queue ++ submitsOf [e]) ++ submitsOf es := by rw [hfifo]
      _ = s.queue ++ (submitsOf [e] ++ submitsOf es) := by simp [List.append_assoc]

/-- C5 -/
theorem fetch_gate_invariants (maxC : Nat) (es : List GateEvent) :
    (gateRun maxC es).1.running ≤ maxC
    ∧ (gateRun maxC es).2 ++ (gateRun maxC es).1.queue = submitsOf es
    ∧ (∀ (s : GateState) (t : Nat) (rest : List Nat),
        s.running ≤ maxC → 0 < s.running → s.queue = t :: rest →
        ∃ adm, (gateStep maxC s GateEvent.complete).2 = t :: adm)
    ∧ (∀ s : GateState, s.queue = [] → 0 < s.running →
        (gateStep maxC s GateEvent.complete).1.running = s.running - 1)
    ∧ maxConcurrentFetchesDefault = 3 := by
  obtain ⟨h1, h2⟩ := gateRunFrom_spec maxC es ⟨[], 0⟩ [] (Nat.zero_le _)
  refine ⟨h1, by simpa [gateRun] using h2, ?_, ?_, rfl⟩
  · intro s t rest hle hpos hq
    have h0 : ¬ s.running = 0 := by omega
    have hlt : s.running - 1 < maxC := by omega
    simp only [gateStep, if_neg h0, runQueue, hq]
    simp only [runQueueAux, if_pos hlt]
    exact ⟨_, rfl⟩
  · intro s hq hpos
    have h0 : ¬ s.running = 0 := by omega
    simp [gateStep, if_neg h0, runQueue, hq, runQueueAux]

theorem fetch_gate_invariants_witness :
    (gateRun 2 [GateEvent.submit 1, GateEvent.submit 2, GateEvent.submit 3,
        GateEvent.complete]).1.running ≤ 2
    ∧ (∃ adm, (gateStep 2 ⟨[7, 8], 2⟩ GateEvent.complete).2 = 7 :: adm) :=
  ⟨(fetch_gate_invariants 2 _).1,
   (fetch_gate_invariants 2 []).2.2.1 ⟨[7, 8], 2⟩ 7 [8] (by decide) (by decide) rfl⟩
/- ===================== Values Extractor: role classification ===================== -/

/-- The role ladder of `getIsgValues` (main.js lines 513-529): the first
matching rule in this fixed order decides the role of a sanitized key. -/
def classifyRole (key : String) : String :=
  if jsSearchHit key "TEMP" || jsSearchHit key "FROST" ||
      jsSearchAtStart key "SOLLWERT_HK" || jsSearchAtStart key "ISTWERT_HK" then
    "value.temperature"
  else if jsSearchHit key "DRUCK" then "value.pressure"
  else if jsSearchAtStart key "P_" then "value.power.consumption"
  else if jsSearchHit key "FEUCHTE" then "value.humidity"
  else "value"

/-- C6 -/
theorem values_role_fixed_order (key : String) :
    ((jsSearchHit key "TEMP" || jsSearchHit key "FROST" ||
        jsSearchAtStart key "SOLLWERT_HK" || jsSearchAtStart key "ISTWERT_HK") = true →
      classifyRole key = "value.temperature")
    ∧ ((jsSearchHit key "TEMP" || jsSearchHit key "FROST" ||
        jsSearchAtStart key "SOLLWERT_HK" || jsSearchAtStart key "ISTWERT_HK") = false →
      jsSearchHit key "DRUCK" = true → classifyRole key = "value.pressure")
    ∧ ((jsSearchHit key "TEMP" || jsSearchHit key "FROST" ||
        jsSearchAtStart key "SOLLWERT_HK" || jsSearchAtStart key "ISTWERT_HK") = false →
      jsSearchHit key "DRUCK" = false → jsSearchAtStart key "P_" = true →
      classifyRole key = "value.power.consumption")
    ∧ ((jsSearchHit key "TEMP" || jsSearchHit key "FROST" ||
        jsSearchAtStart key "SOLLWERT_HK" || jsSearchAtStart key "ISTWERT_HK") = false →
      jsSearchHit key "DRUCK" = false → jsSearchAtStart key "P_" = false →
      jsSearchHit key "FEUCHTE" = true → classifyRole key = "value.humidity")
    ∧ ((jsSearchHit key "TEMP" || jsSearchHit key "FROST" ||
        jsSearchAtStart key "SOLLWERT_HK" || jsSearchAtStart key "ISTWERT_HK") = false →
      jsSearchHit key "DRUCK" = false → jsSearchAtStart key "P_" = false →
      jsSearchHit key "FEUCHTE" = false → classifyRole key = "value") := by
  refine ⟨?_, ?_, ?_, ?_, ?_⟩
  · intro h1
    simp [classifyRole, h1]
  · intro h1 h2
    simp [classifyRole, h1, h2]
  · intro h1 h2 h3
    simp [classifyRole, h1, h2, h3]
  · intro h1 h2 h3 h4
    simp [classifyRole, h1, h2, h3, h4]
  · intro h1 h2 h3 h4
    simp [classifyRole, h1, h2, h3, h4]

theorem values_role_fixed_order_witness :
    classifyRole "AUSSENTEMPERATUR" = "value.temperature"
    ∧ classifyRole "VERDICHTERDRUCK" = "value.pressure"
    ∧ classifyRole "P_HEIZUNG" = "value.power.consumption"
    ∧ classifyRole "RAUMFEUCHTE" = "value.humidity"
    ∧ classifyRole "BETRIEBSSTUNDEN" = "value" :=
  ⟨(values_role_fixed_order "AUSSENTEMPERATUR").1 (by decide),
   (values_role_fixed_order "VERDICHTERDRUCK").2.1 (by decide) (by decide),
   (values_role_fixed_order "P_HEIZUNG").2.2.1 (by decide) (by decide) (by decide),
   (values_role_fixed_order "RAUMFEUCHTE").2.2.2.1 (by decide) (by decide) (by decide)
     (by decide),
   (values_role_fixed_order "BETRIEBSSTUNDEN").2.2.2.2 (by decide) (by decide) (by decide)
     (by decide)⟩
/- ===================== Command Batcher: flush ===================== -/

/-- One pending command `{name, value}` as pushed by `setIsgCommands`. -/
structure PendingCommand where
  name : String
  value : String
deriving DecidableEq, Repr

/-- `commands.push(newCommand)` (main.js lines 1139-1140). -/
def enqueueCommand (batch : List PendingCommand) (n v : String) : List PendingCommand :=
  batch ++ [⟨n, v⟩]

/-- How the flush POST to `save.php` can end. -/
inductive FlushOutcome where
  | ok200
  | httpStatus (code : Nat)
  | transportError
  | aborted
deriving DecidableEq, Repr

/-- Observable effects of one firing of the debounced flush timer. -/
structure FlushEffects where
  batch : List PendingCommand
  readbackScheduled : Bool
  retried : Bool
deriving DecidableEq, Repr

/-- The flush body of `setIsgCommands` (main.js lines 1149-1180): on a
200 response the command pages are re-scheduled for read-back; a non-200
status or a transport error is logged; an abort (timeout) is logged at
debug level.  `commands = []` sits after the try/catch and runs on every
path, and no path re-submits the old batch. -/
def setIsgCommandsFlush (_cmds : List PendingCommand) (outcome : FlushOutcome) :
    FlushEffects :=
  match outcome with
  | .ok200 => { batch := [], readbackScheduled := true, retried := false }
  | .httpStatus _ => { batch := [], readbackScheduled := false, retried := false }
  | .transportError => { batch := [], readbackScheduled := false, retried := false }
  | .aborted => { batch := [], readbackScheduled := false, retried := false }

/-- C7 -/
theorem flush_clears_batch_always (cmds : List PendingCommand) (outcome : FlushOutcome) :
    (setIsgCommandsFlush cmds outcome).batch = []
    ∧ (setIsgCommandsFlush cmds outcome).retried = false := by
  cases outcome <;> exact ⟨rfl, rfl⟩

/- ===================== startup address validation ===================== -/

/-- One octet of the dotted-quad pattern (main.js line 1225):
`25[0-5] | 2[0-4][0-9] | [01]?[0-9][0-9]?`. -/
def octetMatch (l : List Char) : Bool :=
  match l with
  | [a] => a.isDigit
  | [a, b] => a.isDigit && b.isDigit
  | [a, b, c] =>
    (a == '2' && b == '5' && '0' ≤ c && c ≤ '5') ||
    (a == '2' && '0' ≤ b && b ≤ '4' && c.isDigit) ||
    ((a == '0' || a == '1') && b.isDigit && c.isDigit)
  | _ => false

/-- `isgAddress.match(ipformat)`: the anchored regex matches exactly the
strings of four octets joined by single dots. -/
def ipFormatMatch (s : String) : Bool :=
  let parts := splitOnChar '.' s.data
  parts.length == 4 && parts.all octetMatch

/-- The final-label part of the FQDN regex at the current position `l`:
`(?![0-9]*$)[a-z0-9-]+\.?$` — the rest must not be all digits (an empty
rest counts as all digits), and must be one or more of `[a-z0-9-]`
followed by an optional final dot. -/
def labelOk (l : List Char) : Bool :=
  (!(l.all Char.isDigit)) &&
  (let core := if l.getLastD ' ' == '.' then l.dropLast else l
   (!(core == [])) && core.all (fun c => ('a' ≤ c && c ≤ 'z') || c.isDigit || c == '-'))

/-- Backtracking search for the group part `(.{1,63}\.){1,127}` of the
FQDN regex (main.js line 1227) followed by the final label: from the
current rest either stop (if at least one group was consumed) and match
the label, or consume 1-63 arbitrary characters plus a literal dot as one
more group.  Fuel bounds the recursion; every group consumes at least two
characters, so `length + 1` fuel is enough. -/
def fqdnGroups : Nat → Nat → List Char → Bool
  | 0, _, _ => false
  | fuel + 1, blocks, l =>
    (decide (1 ≤ blocks) && labelOk l) ||
    (decide (blocks < 127) &&
      ((List.range 63).any fun m0 =>
        match l.drop (m0 + 1) with
        | '.' :: rest => fqdnGroups fuel (blocks + 1) rest
        | _ => false))

/-- `isgAddress.match(fqdnformat)` for the anchored regex
`^(?!:\/\/)(?=.{1,255}$)((.{1,63}\.){1,127}(?![0-9]*$)[a-z0-9-]+\.?)$`:
not starting with `://`, total length 1-255 with no newline (regex `.`
never matches a newline, which also covers the group bodies), then the
group/label search. -/
def fqdnFormatMatch (s : String) : Bool :=
  let l := s.data
  (!(leadsWith [':', '/', '/'] l)) &&
  l.all (fun c => !(c == '\n')) &&
  decide (1 ≤ l.length) && decide (l.length ≤ 255) &&
  fqdnGroups (l.length + 1) 0 l

/-- Outcome of the address check in `main()` (main.js lines 1229-1238). -/
inductive AddrValidation where
  | missing
  | malformed
  | accepted
deriving DecidableEq, Repr

/-- Lines 1229-1238: a missing or (after trimming) empty `isgAddress`
logs an error, writes `info.connection = false` and returns; an address
matching neither the IPv4 nor the FQDN pattern logs an error and returns
without touching the flag; anything else proceeds. -/
def validateAddress (addr : Option String) : AddrValidation :=
  match addr with
  | none => .missing
  | some a =>
    if jsTrim a == "" then .missing
    else if (!(ipFormatMatch a)) && (!(fqdnFormatMatch a)) then .malformed
    else .accepted

/-- Observable startup behaviour: every write to `info.connection` during
startup validation in order, whether polling was scheduled, and whether
`main()` returned early. -/
structure StartupEffect where
  connectionWrites : List Bool
  pollingScheduled : Bool
  halted : Bool
deriving DecidableEq, Repr

/-- Startup as the adapter runs it: `ready()` resets `info.connection`
to `false` (main.js line 1364) before calling `main()`; `main()` then
validates the address — a missing/empty address writes the flag `false`
once more and halts, a malformed one halts without a further write, and
a valid one goes on to schedule the polling. -/
def startupValidate (addr : Option String) : StartupEffect :=
  match validateAddress addr with
  | .missing => { connectionWrites := [false, false], pollingScheduled := false, halted := true }
  | .malformed => { connectionWrites := [false], pollingScheduled := false, halted := true }
  | .accepted => { connectionWrites := [false], pollingScheduled := true, halted := false }

/-- The value `info.connection` holds when startup validation is over:
the last write wins. -/
def finalConnection (e : StartupEffect) : Option Bool :=
  e.connectionWrites.getLast?

/-- C8 -/
theorem invalid_address_halts_startup (addr : Option String)
    (h : validateAddress addr ≠ AddrValidation.accepted) :
    (startupValidate addr).halted = true
    ∧ (startupValidate addr).pollingScheduled = false
    ∧ finalConnection (startupValidate addr) = some false := by
  cases hv : validateAddress addr with
  | missing => simp [startupValidate, hv, finalConnection]
  | malformed => simp [startupValidate, hv, finalConnection]
  | accepted => exact absurd hv h

theorem invalid_address_halts_startup_witness :
    validateAddress (some "ABC") ≠ AddrValidation.accepted
    ∧ (startupValidate (some "ABC")).halted = true
    ∧ (startupValidate (some "ABC")).pollingScheduled = false
    ∧ finalConnection (startupValidate (some "ABC")) = some false :=
  ⟨by decide, invalid_address_halts_startup (some "ABC") (by decide)⟩
